import Mathlib

/-!
# Verification of the AI todo manager (Next.js/Supabase app)

Shallow embedding of the three reviewable pieces of the repository:

* the structured-extraction endpoint (input preprocessing/validation,
  post-processing of the model output, request pipeline);
* the summary endpoint (deterministic statistics, urgent-task list,
  request pipeline);
* the client optimistic-state layer (optimistic add with rollback /
  confirmation, derived filtered-and-sorted view).

Modelling conventions:

* JavaScript strings are represented as `List Char` (`JsStr`) where the
  code manipulates them character-wise, and as Lean `String` where they
  are only compared or stored.
* A JavaScript `Date` is represented by its civil UTC components plus the
  milliseconds elapsed within the day (`JsDate`); the timezone offset is
  taken to be 0, so local-midnight flooring (`setHours(0,0,0,0)`)
  coincides with UTC-day flooring.  `daysFromCivil` is the standard
  civil-calendar day count, so comparing two dates compares their
  timestamps and "the next day" is `+ 1` on the day number.
* The floating-point arithmetic of the summary statistics is modelled
  exactly: a binary64 value is the dyadic rational `m * 2^e` (`Dyadic`),
  each JavaScript arithmetic result is rounded to 53 significand bits
  with ties to even (`roundRatToDouble`), and `toFixed(1)` (nearest
  multiple of 1/10, ties to the larger value) is `jsToFixed1`.
* The hosted inference provider is a parameter of the endpoint functions
  (`Except AiError _`), and each endpoint returns, besides its response,
  a `Bool` recording whether the provider was invoked.
-/

abbrev JsStr := List Char

/-- Priority enum of a todo record (`"high" | "medium" | "low"`). -/
inductive Priority
  | high
  | medium
  | low
deriving DecidableEq, Repr

/-- A JavaScript `Date` under timezone offset 0: civil year/month/day plus
milliseconds within the day. -/
structure JsDate where
  y : Nat
  m : Nat
  d : Nat
  msOfDay : Nat
deriving DecidableEq, Repr

/-- Whether `y` is a Gregorian leap year. -/
def isLeapYear (y : Nat) : Bool :=
  y % 4 = 0 && (y % 100 ≠ 0 || y % 400 = 0)

/-- Number of days of month `m` (1..12) in year `y`. -/
def daysInMonth (y m : Nat) : Nat :=
  if m = 2 then (if isLeapYear y then 29 else 28)
  else if m = 4 || m = 6 || m = 9 || m = 11 then 30
  else 31

/-- Civil-calendar day count (Gregorian), shifted so that it stays in
`Nat` for every year 0..9999; a strictly increasing linearization of
valid `(y, m, d)` dates, with consecutive dates mapping to consecutive
numbers. -/
def daysFromCivil (y m d : Nat) : Nat :=
  let yAdj := if m ≤ 2 then y + 399 else y + 400
  let mp := if m ≤ 2 then m + 9 else m - 3
  let era := yAdj / 400
  let yoe := yAdj % 400
  let doy := (153 * mp + 2) / 5 + (d - 1)
  let doe := yoe * 365 + yoe / 4 - yoe / 100 + doy
  era * 146097 + doe

/-- Day number of a `JsDate`. -/
def JsDate.day (dt : JsDate) : Nat := daysFromCivil dt.y dt.m dt.d

/-- Timestamp (milliseconds, offset 0) of a `JsDate`. -/
def JsDate.ts (dt : JsDate) : Nat := 86400000 * dt.day + dt.msOfDay

/-- `d.setHours(0, 0, 0, 0)`: floor a date to midnight. -/
def startOfDay (dt : JsDate) : JsDate := { dt with msOfDay := 0 }

/-- Numeric value of a decimal digit character. -/
def digitVal (c : Char) : Nat := c.toNat - '0'.toNat

/-- `^\d{4}-\d{2}-\d{2}$` — the `dateRegex` of the extraction route. -/
def dateRegexTest (s : JsStr) : Bool :=
  match s with
  | [y1, y2, y3, y4, '-', m1, m2, '-', d1, d2] =>
    y1.isDigit && y2.isDigit && y3.isDigit && y4.isDigit &&
    m1.isDigit && m2.isDigit && d1.isDigit && d2.isDigit
  | _ => false

/-- `^\d{2}:\d{2}$` — the `timeRegex` of the extraction route. -/
def timeRegexTest (s : JsStr) : Bool :=
  match s with
  | [h1, h2, ':', m1, m2] =>
    h1.isDigit && h2.isDigit && m1.isDigit && m2.isDigit
  | _ => false

/-- `new Date(s)` for a string shaped `YYYY-MM-DD`: UTC midnight of that
civil date when the components are in range, `none` (Invalid Date — every
comparison against it is false) otherwise or when the shape is wrong. -/
def jsParseIsoDate (s : JsStr) : Option JsDate :=
  match s with
  | [y1, y2, y3, y4, '-', m1, m2, '-', d1, d2] =>
    if y1.isDigit && y2.isDigit && y3.isDigit && y4.isDigit &&
       m1.isDigit && m2.isDigit && d1.isDigit && d2.isDigit then
      let y := 1000 * digitVal y1 + 100 * digitVal y2 + 10 * digitVal y3 + digitVal y4
      let m := 10 * digitVal m1 + digitVal m2
      let d := 10 * digitVal d1 + digitVal d2
      if 1 ≤ m && m ≤ 12 && 1 ≤ d && d ≤ daysInMonth y m then
        some { y := y, m := m, d := d, msOfDay := 0 }
      else none
    else none
  | _ => none

/-- Left-pad the decimal form of `n` with zeroes to width 2. -/
def pad2 (n : Nat) : String :=
  if n < 10 then "0" ++ toString n else toString n

/-- Left-pad the decimal form of `n` with zeroes to width 4. -/
def pad4 (n : Nat) : String :=
  if n < 10 then "000" ++ toString n
  else if n < 100 then "00" ++ toString n
  else if n < 1000 then "0" ++ toString n
  else toString n

/-- `date.toISOString().split("T")[0]` under offset 0: the `YYYY-MM-DD`
rendering of the date's civil components. -/
def toISODatePart (dt : JsDate) : JsStr :=
  (pad4 dt.y ++ "-" ++ pad2 dt.m ++ "-" ++ pad2 dt.d).toList

/-! ## Structured-extraction endpoint -/

/-- The character class `\s` of the JavaScript regexes used by
`preprocessInput` (ASCII whitespace; the exotic Unicode members are
omitted from the model). -/
def isJsWhitespace (c : Char) : Bool :=
  c = ' ' || c = '\t' || c = '\n' || c = '\r' || c = '\x0b' || c = '\x0c'

/-- `input.trim()`: drop leading and trailing whitespace. -/
def trimList (l : JsStr) : JsStr :=
  ((l.dropWhile isJsWhitespace).reverse.dropWhile isJsWhitespace).reverse

/-- `processed.replace(/\s+/g, " ")`: collapse every maximal whitespace
run to a single space.  Implemented structurally from the right: a
whitespace character in front of an already-collapsed tail either joins
the single space its own run already produced or opens a new one (every
space in the output stems from a whitespace run, so runs never leave two
adjacent spaces behind). -/
def collapseWhitespace : JsStr → JsStr
  | [] => []
  | c :: rest =>
    let r := collapseWhitespace rest
    if isJsWhitespace c then
      match r with
      | ' ' :: _ => r
      | _ => ' ' :: r
    else
      c :: r

/-- `preprocessInput` of the extraction route: trim, then collapse
internal whitespace runs to a single space. -/
def preprocessInput (input : JsStr) : JsStr :=
  collapseWhitespace (trimList input)

/-- Input validation constants of the extraction route. -/
def INPUT_MIN_LENGTH : Nat := 2

/-- Input validation constants of the extraction route. -/
def INPUT_MAX_LENGTH : Nat := 500

/-- Title clamping constants of the extraction route. -/
def TITLE_MIN_LENGTH : Nat := 2

/-- Title clamping constants of the extraction route. -/
def TITLE_MAX_LENGTH : Nat := 100

/-- `validateInput` of the extraction route: `true` iff the input is
accepted (the error message branches are collapsed to `false`). -/
def validateInput (input : JsStr) : Bool :=
  if input = [] || (trimList input).length = 0 then false
  else if input.length < INPUT_MIN_LENGTH then false
  else if input.length > INPUT_MAX_LENGTH then false
  else true

/-- The model output shape enforced by `todoSchema` (`z.infer`). -/
structure TodoRaw where
  title : JsStr
  description : Option String
  due_date : JsStr
  due_time : Option JsStr
  priority : Priority
  category : Option String
deriving DecidableEq, Repr

/-- `postprocessTodoData` of the extraction route: clamp the title,
rewrite a past `due_date` (matching `YYYY-MM-DD`) to today, default the
time to `09:00`.  Notes kept from the source: `todoData.title || "할 일"`
only fires on the empty string; `todoData.priority || "medium"` can never
fire because the schema's enum values are all truthy; a `due_date` that
matches the regex but is not a real calendar date yields an Invalid Date
in JavaScript, whose comparisons are all false, hence no rewrite — this
is folded into `jsParseIsoDate` returning `none`. -/
def postprocessTodoData (todoData : TodoRaw) (today : JsDate) : TodoRaw :=
  let title0 := if todoData.title = [] then "할 일".toList else todoData.title
  let title :=
    if title0.length < TITLE_MIN_LENGTH then "할 일".toList
    else if title0.length > TITLE_MAX_LENGTH then
      title0.take (TITLE_MAX_LENGTH - 3) ++ "...".toList
    else title0
  let dueDate :=
    match jsParseIsoDate todoData.due_date with
    | some dueDateObj =>
      if (startOfDay dueDateObj).ts < (startOfDay today).ts then
        toISODatePart today
      else todoData.due_date
    | none => todoData.due_date
  let priority := todoData.priority
  let dueTime :=
    match todoData.due_time with
    | some t => t
    | none => "09:00".toList
  { todoData with
      title := title
      due_date := dueDate
      due_time := some dueTime
      priority := priority }

/-- Outcome of a call to the hosted inference provider, as classified by
the endpoints' catch blocks: quota / rate-limit errors versus anything
else. -/
inductive AiError
  | rateLimited
  | other
deriving DecidableEq, Repr

/-- An HTTP response of an endpoint: a 200 payload or an error status. -/
inductive ApiResponse (α : Type)
  | ok (body : α)
  | error (status : Nat)
deriving DecidableEq, Repr

/-- The parsed request body of the extraction endpoint, after the
framework's JSON step: parse failure, an `input` field that is not a
string, or a string `input`. -/
inductive ExtractReq
  | badJson
  | inputNotString
  | input (s : JsStr)
deriving DecidableEq, Repr

/-- Success payload of the extraction endpoint. -/
structure ExtractOut where
  title : JsStr
  description : Option String
  due_date : JsStr
  priority : Priority
  category : Option String
  completed : Bool
deriving DecidableEq, Repr

/-- `description || null` / `category || null`: the empty string is
falsy, so it is sent as `null`. -/
def orNull (s : Option String) : Option String :=
  match s with
  | some t => if t = "" then none else some t
  | none => none

/-- The `POST` handler of the extraction route.  `keySet` is whether the
inference credential environment variable is set; `ai` is the outcome the
provider would produce if called; the returned `Bool` records whether the
provider was called. -/
def extractPOST (keySet : Bool) (req : ExtractReq) (today : JsDate)
    (ai : Except AiError TodoRaw) : ApiResponse ExtractOut × Bool :=
  if !keySet then (.error 500, false)
  else
    match req with
    | .badJson => (.error 400, false)
    | .inputNotString => (.error 400, false)
    | .input s =>
      let preprocessedInput := preprocessInput s
      if !validateInput preprocessedInput then (.error 400, false)
      else
        match ai with
        | .error .rateLimited => (.error 429, true)
        | .error .other => (.error 500, true)
        | .ok rawTodoData =>
          let todoData := postprocessTodoData rawTodoData today
          if !dateRegexTest todoData.due_date then (.error 500, true)
          else
            let dueTime :=
              match todoData.due_time with
              | some t => t
              | none => "09:00".toList
            if !timeRegexTest dueTime then (.error 500, true)
            else
              (.ok { title := todoData.title
                     description := orNull todoData.description
                     due_date := todoData.due_date ++ 'T' :: dueTime ++ ":00".toList
                     priority := todoData.priority
                     category := orNull todoData.category
                     completed := false }, true)

/-! ## Summary endpoint -/

/-- A todo record as the summary endpoint receives it (`TodoData`); the
`due_date` / `created_date` ISO strings are represented by their parsed
dates (offset 0). -/
structure TodoData where
  id : String
  title : String
  description : Option String
  due_date : Option JsDate
  priority : Priority
  category : Option String
  completed : Bool
  created_date : JsDate
deriving DecidableEq, Repr

/-- A finite IEEE-754 binary64 value, represented exactly as the dyadic
rational `m * 2^e` (not necessarily normalized; only the denoted value
matters to the operations below). -/
structure Dyadic where
  m : ℤ
  e : ℤ
deriving DecidableEq, Repr

/-- `2 ^ n` as an integer. -/
def ipow2 (n : Nat) : ℤ := 2 ^ n

/-- Bit length of `n` (`0` for `0`), with an explicit fuel so that the
recursion is structural. -/
def bitLenAux : Nat → Nat → Nat
  | 0, _ => 0
  | fuel + 1, n => if n = 0 then 0 else bitLenAux fuel (n / 2) + 1

/-- Bit length of `n` (`0` for `0`). -/
def natBitLen (n : Nat) : Nat := bitLenAux n n

/-- Whether `p / q < 2 ^ e`, for positive `p`, `q`. -/
def ltPow2 (p q : ℤ) (e : ℤ) : Bool :=
  if 0 ≤ e then p < q * ipow2 e.toNat else p * ipow2 (-e).toNat < q

/-- `⌊log₂ (p / q)⌋` for positive `p`, `q`: the bit-length difference,
corrected down by one when it overshoots. -/
def floorLog2Frac (p q : ℤ) : ℤ :=
  let e0 : ℤ := (natBitLen p.toNat : ℤ) - (natBitLen q.toNat : ℤ)
  if ltPow2 p q e0 then e0 - 1 else e0

/-- Round the positive rational `p / q` to the nearest binary64 value
(53-bit significand, ties to even) — the IEEE rounding every JavaScript
arithmetic result undergoes.  Non-positive inputs (only `0` occurs in
this development) map to `0`; the subnormal and overflow fringes, which
the summary route's values (counts bounded by the JavaScript array-length
limit and their ratios scaled by 100) never reach, are modelled without
the exponent clamp. -/
def roundRatToDouble (p q : ℤ) : Dyadic :=
  if p ≤ 0 || q ≤ 0 then { m := 0, e := 0 }
  else
    let e := floorLog2Frac p q
    let s := e - 52
    let num := if 0 ≤ s then p else p * ipow2 (-s).toNat
    let den := if 0 ≤ s then q * ipow2 s.toNat else q
    let mlo := num / den
    let rem := num - mlo * den
    let mR :=
      if 2 * rem < den then mlo
      else if den < 2 * rem then mlo + 1
      else if mlo % 2 = 0 then mlo else mlo + 1
    { m := mR, e := s }

/-- The binary64 value of the JavaScript number `n` (counts and array
lengths enter arithmetic as doubles; exact below `2^53`). -/
def natToDouble (n : Nat) : Dyadic := roundRatToDouble (n : ℤ) 1

/-- Binary64 division: the exact quotient, IEEE-rounded. -/
def fpDiv (a b : Dyadic) : Dyadic :=
  let shift := a.e - b.e
  let p := if 0 ≤ shift then a.m * ipow2 shift.toNat else a.m
  let q := if 0 ≤ shift then b.m else b.m * ipow2 (-shift).toNat
  roundRatToDouble p q

/-- Binary64 multiplication: the exact product, IEEE-rounded. -/
def fpMul (a b : Dyadic) : Dyadic :=
  let prod := a.m * b.m
  let e := a.e + b.e
  if 0 ≤ e then roundRatToDouble (prod * ipow2 e.toNat) 1
  else roundRatToDouble prod (ipow2 (-e).toNat)

/-- Render `n` tenths with one decimal (`287 ↦ "28.7"`). -/
def toFixedString (n : ℤ) : String :=
  toString (n / 10) ++ "." ++ toString (n % 10)

/-- `x.toFixed(1)` (ECMA-262) for the non-negative values of this route:
the integer `n` minimizing `|n / 10 - x|`, ties to the larger `n` — that
is `⌊10 * x + 1 / 2⌋` — rendered with one decimal. -/
def jsToFixed1 (x : Dyadic) : String :=
  let n : ℤ :=
    if 0 ≤ x.e then 10 * x.m * ipow2 x.e.toNat
    else (20 * x.m + ipow2 (-x.e).toNat) / (2 * ipow2 (-x.e).toNat)
  toFixedString n

/-- Number of completed records of a list. -/
def completedCount (todos : List TodoData) : Nat :=
  (todos.filter (fun t => t.completed)).length

/-- `completionRate` of the summary route:
`total > 0 ? ((completed / total) * 100).toFixed(1) : "0.0"`, the
division and the multiplication each evaluated in binary64 as JavaScript
evaluates them (`{ m := 100, e := 0 }` is the literal `100`). -/
def completionRate (todos : List TodoData) : String :=
  if todos.length > 0 then
    jsToFixed1 (fpMul (fpDiv (natToDouble (completedCount todos))
      (natToDouble todos.length)) { m := 100, e := 0 })
  else "0.0"

/-- The `highPriority` / `mediumPriority` / `lowPriority` sublists. -/
def priorityGroup (p : Priority) (todos : List TodoData) : List TodoData :=
  todos.filter (fun t => t.priority = p)

/-- `highCompletionRate` (and medium / low) of the summary route, with
the same binary64 evaluation as `completionRate`. -/
def priorityCompletionRate (p : Priority) (todos : List TodoData) : String :=
  let g := priorityGroup p todos
  if g.length > 0 then
    jsToFixed1 (fpMul (fpDiv (natToDouble (completedCount g))
      (natToDouble g.length)) { m := 100, e := 0 })
  else "0.0"

/-- The `urgentTasks` filter body of the summary route: incomplete, and
high-priority or with a due date whose midnight floor is `<=` tomorrow
(today's midnight plus one day). -/
def isUrgentLocal (todayDay : Nat) (t : TodoData) : Bool :=
  if t.completed then false
  else if t.priority = Priority.high then true
  else
    match t.due_date with
    | some dueDate => 86400000 * (startOfDay dueDate).day ≤ 86400000 * todayDay + 86400000
    | none => false

/-- `urgentTasks` of the summary route: filter, take the titles, keep at
most five (`slice(0, 5)`).  `now` is the instant `new Date()` produced as
`todayForAnalysis`, floored to midnight before use. -/
def urgentTasksLocal (now : JsDate) (todos : List TodoData) : List String :=
  ((todos.filter (isUrgentLocal (startOfDay now).day)).map (fun t => t.title)).take 5

/-- The urgent-task predicate as the specification words it: incomplete
and high-priority or due today or tomorrow (date-only comparison). -/
def isUrgentSpec (todayDay : Nat) (t : TodoData) : Bool :=
  !t.completed &&
    (t.priority = Priority.high ||
      match t.due_date with
      | some dueDate => (startOfDay dueDate).day = todayDay || (startOfDay dueDate).day = todayDay + 1
      | none => false)

/-- The urgent-task list as the specification describes it, for
comparison with `urgentTasksLocal`. -/
def urgentTasksSpec (now : JsDate) (todos : List TodoData) : List String :=
  ((todos.filter (isUrgentSpec (startOfDay now).day)).map (fun t => t.title)).take 5

/-- The urgent-task predicate amended to what the code computes: due on
or before tomorrow (overdue records included). -/
def isUrgentAmended (todayDay : Nat) (t : TodoData) : Bool :=
  !t.completed &&
    (t.priority = Priority.high ||
      match t.due_date with
      | some dueDate => (startOfDay dueDate).day ≤ todayDay + 1
      | none => false)

/-- The amended urgent-task list. -/
def urgentTasksAmended (now : JsDate) (todos : List TodoData) : List String :=
  ((todos.filter (isUrgentAmended (startOfDay now).day)).map (fun t => t.title)).take 5

/-- Success payload of the summary endpoint (`summarySchema` shape). -/
structure SummaryOut where
  summary : String
  urgentTasks : List String
  insights : List String
  recommendations : List String
deriving DecidableEq, Repr

/-- The parsed request body of the summary endpoint: parse failure, a
`todos` field that is not an array, or a todo list plus the raw `period`
string. -/
inductive SummaryReq
  | badJson
  | todosNotArray
  | parsed (todos : List TodoData) (period : String)
deriving DecidableEq, Repr

/-- The canned zero-data response body of the summary route (returned
with status 200 when `todos` is empty). -/
def emptySummaryOut (period : String) : SummaryOut :=
  { summary :=
      if period = "today" then "오늘 등록된 할 일이 없습니다."
      else "이번 주 등록된 할 일이 없습니다."
    urgentTasks := []
    insights := ["할 일을 추가하여 생산성을 높여보세요!"]
    recommendations := ["새로운 할 일을 추가해보세요."] }

/-- The `POST` handler of the summary route.  `keySet` is whether the
inference credential environment variable is set; `ai` is the outcome
the provider would produce if called; the returned `Bool` records
whether the provider was called.  On provider success the arrays pass
through unchanged: the `|| urgentTasks` / `|| []` fallbacks in the
source can never fire because arrays (even empty ones) are truthy and
the schema makes every field present. -/
def summaryPOST (keySet : Bool) (req : SummaryReq) (now : JsDate)
    (ai : Except AiError SummaryOut) : ApiResponse SummaryOut × Bool :=
  if !keySet then (.error 500, false)
  else
    match req with
    | .badJson => (.error 400, false)
    | .todosNotArray => (.error 400, false)
    | .parsed todos period =>
      if period ≠ "today" && period ≠ "week" then (.error 400, false)
      else if todos.length = 0 then (.ok (emptySummaryOut period), false)
      else
        match ai with
        | .error .rateLimited => (.error 429, true)
        | .error .other => (.error 500, true)
        | .ok out =>
          (.ok { summary := out.summary
                 urgentTasks := out.urgentTasks
                 insights := out.insights
                 recommendations := out.recommendations }, true)

/-! ## Client optimistic-state layer (`app/page.tsx`) -/

/-- A client-side todo record (`Todo` of `components/todo/types`), as
materialized by `fetchTodos`; the ISO date strings are represented by
their parsed dates (offset 0). -/
structure Todo where
  id : String
  user_id : String
  title : JsStr
  description : Option String
  created_date : JsDate
  due_date : Option JsDate
  priority : Priority
  category : Option String
  completed : Bool
deriving DecidableEq, Repr

/-- `setTodos((prev) => [optimisticTodo, ...prev])`: the optimistic
insertion step of `handleAddTodo`. -/
def addOptimistic (optimisticTodo : Todo) (prev : List Todo) : List Todo :=
  optimisticTodo :: prev

/-- `setTodos((prev) => prev.filter((todo) => todo.id !== tempId))`: the
rollback step of `handleAddTodo` on backend failure. -/
def rollbackAdd (tempId : String) (prev : List Todo) : List Todo :=
  prev.filter (fun todo => todo.id ≠ tempId)

/-- `setTodos((prev) => prev.map((todo) => todo.id === tempId ? {...newTodo fields...} : todo))`:
the confirmation step of `handleAddTodo` on backend success, replacing
the temporary record by the server record in place. -/
def confirmAdd (tempId : String) (newTodo : Todo) (prev : List Todo) : List Todo :=
  prev.map (fun todo => if todo.id = tempId then newTodo else todo)

/-- The status filter values of the page. -/
inductive FilterStatus
  | all
  | completed
  | inProgress
  | overdue
deriving DecidableEq, Repr

/-- The sort options of the page. -/
inductive SortOption
  | priority
  | due_date
  | created_date
  | title
deriving DecidableEq, Repr

/-- The status-filter predicate of `filteredAndSortedTodos` (`now` is the
instant `new Date()` of the comparisons). -/
def statusPred (now : JsDate) (statusFilter : FilterStatus) (todo : Todo) : Bool :=
  match statusFilter with
  | .all => true
  | .completed => todo.completed
  | .inProgress =>
    !todo.completed &&
      (match todo.due_date with
       | none => true
       | some dueDate => dueDate.ts ≥ now.ts)
  | .overdue =>
    !todo.completed &&
      (match todo.due_date with
       | none => false
       | some dueDate => dueDate.ts < now.ts)

/-- `priorityOrder = { high: 3, medium: 2, low: 1 }`. -/
def priorityOrder (p : Priority) : Int :=
  match p with
  | .high => 3
  | .medium => 2
  | .low => 1

/-- The sort comparator of `filteredAndSortedTodos`.  `titleOrder` stands
for `a.title.localeCompare(b.title, "ko")`, which is locale-defined and
therefore a parameter of the model. -/
def compareTodos (titleOrder : JsStr → JsStr → Int) (sortBy : SortOption)
    (a b : Todo) : Int :=
  match sortBy with
  | .priority => priorityOrder b.priority - priorityOrder a.priority
  | .due_date =>
    match a.due_date, b.due_date with
    | none, _ => 1
    | some _, none => -1
    | some da, some db => (da.ts : Int) - (db.ts : Int)
  | .created_date => (b.created_date.ts : Int) - (a.created_date.ts : Int)
  | .title => titleOrder a.title b.title

/-- Split a list into the elements at even and at odd positions (the
halving step of the stable merge sort used to model
`Array.prototype.sort`). -/
def splitList {α : Type} : List α → List α × List α
  | [] => ([], [])
  | [a] => ([a], [])
  | a :: b :: rest =>
    let p := splitList rest
    (a :: p.1, b :: p.2)

/-- Merge two lists, preferring the left element when `le` holds. -/
def mergeLists {α : Type} (le : α → α → Bool) : List α → List α → List α
  | [], ys => ys
  | x :: xs, [] => x :: xs
  | x :: xs, y :: ys =>
    if le x y then x :: mergeLists le xs (y :: ys)
    else y :: mergeLists le (x :: xs) ys
termination_by xs ys => xs.length + ys.length

/-- Both halves produced by `splitList` are no longer than the input. -/
theorem splitList_length_le {α : Type} :
    ∀ l : List α, ((splitList l).1).length ≤ l.length ∧ ((splitList l).2).length ≤ l.length
  | [] => by simp [splitList]
  | [a] => by simp [splitList]
  | a :: b :: rest => by
    have ih := splitList_length_le rest
    simp only [splitList, List.length_cons]
    omega

/-- Stable merge sort with a boolean comparator, the model of
`Array.prototype.sort(comparator)` (engines implement a stable merge-based
sort; `le a b` stands for `comparator(a, b) <= 0`). -/
def mergeSortBy {α : Type} (le : α → α → Bool) : List α → List α
  | [] => []
  | [a] => [a]
  | a :: b :: rest =>
    let p := splitList (a :: b :: rest)
    mergeLists le (mergeSortBy le p.1) (mergeSortBy le p.2)
termination_by l => l.length
decreasing_by
  · have ih := splitList_length_le rest
    simp only [splitList, List.length_cons]
    omega
  · have ih := splitList_length_le rest
    simp only [splitList, List.length_cons]
    omega

/-- `filteredAndSortedTodos` of the page: search filter (case-insensitive
substring on the title), status filter, priority filter, then sort.
`now` is the instant the date comparisons use, `titleOrder` models the
locale-defined `localeCompare`, `priorityFilter = none` is the `"all"`
setting. -/
def filteredAndSortedTodos (now : JsDate) (titleOrder : JsStr → JsStr → Int)
    (searchQuery : JsStr) (statusFilter : FilterStatus)
    (priorityFilter : Option Priority) (sortBy : SortOption)
    (todos : List Todo) : List Todo :=
  let filtered := todos
  let filtered :=
    if searchQuery ≠ [] then
      let query := searchQuery.map Char.toLower
      filtered.filter (fun todo => decide (query <:+: todo.title.map Char.toLower))
    else filtered
  let filtered :=
    if statusFilter ≠ FilterStatus.all then
      filtered.filter (statusPred now statusFilter)
    else filtered
  let filtered :=
    match priorityFilter with
    | some p => filtered.filter (fun todo => todo.priority = p)
    | none => filtered
  mergeSortBy (fun a b => compareTodos titleOrder sortBy a b ≤ 0) filtered

example : preprocessInput "  a   b ".toList = "a b".toList := by decide
example : preprocessInput ['a'] = ['a'] := by decide
example : daysFromCivil 2025 6 2 = daysFromCivil 2025 6 1 + 1 := by decide
example : daysFromCivil 2025 3 1 = daysFromCivil 2025 2 28 + 1 := by decide
example : daysFromCivil 2024 2 29 = daysFromCivil 2024 2 28 + 1 := by decide
example : daysFromCivil 2025 1 1 = daysFromCivil 2024 12 31 + 1 := by decide
example : jsParseIsoDate "2025-02-30".toList = none := by decide
example : jsParseIsoDate "2025-06-03".toList = some ⟨2025, 6, 3, 0⟩ := by decide
example : toISODatePart ⟨2025, 6, 3, 123⟩ = "2025-06-03".toList := by decide

/-! ## Concrete fixtures used by witnesses and counterexamples -/

/-- A concrete instant: 2025-06-02, midnight. -/
def exDate : JsDate := ⟨2025, 6, 2, 0⟩

/-- A concrete inference outcome for pipelines that never reach the
provider. -/
def exAiTodo : Except AiError TodoRaw := Except.error AiError.other

/-- A concrete inference outcome for pipelines that never reach the
provider. -/
def exAiSummary : Except AiError SummaryOut := Except.error AiError.other

/-- A concrete server-confirmed todo record. -/
def exServerTodo : Todo :=
  { id := "rec-42"
    user_id := "user-1"
    title := "회의".toList
    description := none
    created_date := ⟨2025, 6, 2, 3600000⟩
    due_date := some ⟨2025, 6, 3, 0⟩
    priority := Priority.high
    category := none
    completed := false }

/-- A concrete pre-existing todo record. -/
def exPrevTodo : Todo :=
  { exServerTodo with id := "rec-1", title := "쇼핑".toList, priority := Priority.low }

/-- A concrete optimistic temporary record (`temp-${Date.now()}` id). -/
def exTempTodo : Todo :=
  { exServerTodo with id := "temp-1748822400000", created_date := ⟨2025, 6, 2, 0⟩ }

/-! ## Claims -/

/-- C1: after an optimistic add whose backend insert fails, the rollback
`prev.filter((todo) => todo.id !== tempId)` applied to the optimistic
state `[optimisticTodo, ...prev]` restores exactly the pre-mutation
list, and no record with the temporary identifier remains; the
hypothesis is that the temporary identifier was fresh, i.e. no
pre-mutation record carries it. -/
theorem optimistic_add_rollback_restores (prev : List Todo) (temp : Todo)
    (hfresh : ∀ t ∈ prev, t.id ≠ temp.id) :
    rollbackAdd temp.id (addOptimistic temp prev) = prev ∧
      ∀ t ∈ rollbackAdd temp.id (addOptimistic temp prev), t.id ≠ temp.id := by
  have heq : rollbackAdd temp.id (addOptimistic temp prev) = prev := by
    unfold rollbackAdd addOptimistic
    rw [List.filter_cons_of_neg (by simp)]
    exact List.filter_eq_self.mpr (fun t ht => by simpa using hfresh t ht)
  refine ⟨heq, ?_⟩
  intro t ht
  rw [heq] at ht
  exact hfresh t ht

/-- Witness for C1 at a concrete state. -/
theorem optimistic_add_rollback_restores_witness :
    rollbackAdd exTempTodo.id (addOptimistic exTempTodo [exPrevTodo]) = [exPrevTodo] :=
  (optimistic_add_rollback_restores [exPrevTodo] exTempTodo (by decide)).1

/-- C2: after an optimistic add whose backend insert succeeds, the
confirmation step `prev.map((todo) => todo.id === tempId ? newTodo : todo)`
replaces the temporary record in place by the server-confirmed record and
leaves no record with the temporary identifier; hypotheses: the temporary
identifier was fresh in the pre-mutation list, and the server-assigned id
differs from it. -/
theorem optimistic_add_confirm_replaces (prev : List Todo) (temp newTodo : Todo)
    (hfresh : ∀ t ∈ prev, t.id ≠ temp.id) (hnew : newTodo.id ≠ temp.id) :
    confirmAdd temp.id newTodo (addOptimistic temp prev) = newTodo :: prev ∧
      ∀ t ∈ confirmAdd temp.id newTodo (addOptimistic temp prev), t.id ≠ temp.id := by
  have heq : confirmAdd temp.id newTodo (addOptimistic temp prev) = newTodo :: prev := by
    unfold confirmAdd addOptimistic
    rw [List.map_cons, if_pos rfl]
    congr 1
    calc prev.map (fun todo => if todo.id = temp.id then newTodo else todo)
        = prev.map id := List.map_congr_left (fun t ht => if_neg (hfresh t ht))
      _ = prev := List.map_id prev
  refine ⟨heq, ?_⟩
  intro t ht
  rw [heq] at ht
  rcases List.mem_cons.mp ht with h | h
  · exact h ▸ hnew
  · exact hfresh t h

/-- Witness for C2 at a concrete state. -/
theorem optimistic_add_confirm_replaces_witness :
    confirmAdd exTempTodo.id exServerTodo (addOptimistic exTempTodo [exPrevTodo]) =
      [exServerTodo, exPrevTodo] :=
  (optimistic_add_confirm_replaces [exPrevTodo] exTempTodo exServerTodo
    (by decide) (by decide)).1

/-- C10: with the inference credential environment variable unset, the
extraction endpoint answers 500 before parsing or validating anything —
for every request body shape — and never calls the provider. -/
theorem extract_missing_credential_short_circuits (req : ExtractReq)
    (today : JsDate) (ai : Except AiError TodoRaw) :
    extractPOST false req today ai = (ApiResponse.error 500, false) := rfl

/-- C3: whenever the preprocessed input (trimmed, internal whitespace
runs collapsed) is shorter than 2 or longer than 500 characters, the
extraction endpoint answers 400 and the provider is never called. -/
theorem extract_rejects_out_of_range_input (s : JsStr) (today : JsDate)
    (ai : Except AiError TodoRaw)
    (h : (preprocessInput s).length < 2 ∨ (preprocessInput s).length > 500) :
    extractPOST true (ExtractReq.input s) today ai = (ApiResponse.error 400, false) := by
  have hval : validateInput (preprocessInput s) = false := by
    unfold validateInput INPUT_MIN_LENGTH INPUT_MAX_LENGTH
    split_ifs with h1 h2 h3
    · rfl
    · rfl
    · rfl
    · omega
  unfold extractPOST
  simp [hval]

/-- Witness for C3: the one-character input `"a"`. -/
theorem extract_rejects_out_of_range_input_witness :
    extractPOST true (ExtractReq.input ['a']) exDate exAiTodo =
      (ApiResponse.error 400, false) :=
  extract_rejects_out_of_range_input ['a'] exDate exAiTodo (by decide)

/-- C7: with `todos = []` and a valid `period`, the summary endpoint
returns the canned zero-data body (`Response.json` without an explicit
status, hence 200, modelled by the `ok` constructor) and never calls the
provider. -/
theorem summary_empty_todos_canned (now : JsDate) (ai : Except AiError SummaryOut)
    (period : String) (h : period = "today" ∨ period = "week") :
    summaryPOST true (SummaryReq.parsed [] period) now ai =
      (ApiResponse.ok (emptySummaryOut period), false) := by
  rcases h with h | h <;> subst h <;> rfl

/-- Witness for C7 at `period = "today"`. -/
theorem summary_empty_todos_canned_witness :
    summaryPOST true (SummaryReq.parsed [] "today") exDate exAiSummary =
      (ApiResponse.ok (emptySummaryOut "today"), false) :=
  summary_empty_todos_canned exDate exAiSummary "today" (Or.inl rfl)

/-- The completion-rate formula exactly as the claim words it: the exact
rational `100 * completed / total` rounded to one decimal place, `"0.0"`
for an empty group; over the integers,
`⌊10 * (100 * c / t) + 1 / 2⌋ = (2000 * c + t) / (2 * t)`. -/
def rateSpec (completed total : Nat) : String :=
  if total = 0 then "0.0"
  else toFixedString ((2000 * completed + total : ℤ) / (2 * total : ℤ))

/-- A completed record for the C8 counterexample list. -/
def exDoneTodo : TodoData :=
  { id := "done-1"
    title := "완료된 일"
    description := none
    due_date := none
    priority := Priority.medium
    category := none
    completed := true
    created_date := ⟨2025, 6, 1, 0⟩ }

/-- An uncompleted record for the C8 counterexample list. -/
def exOpenTodo : TodoData :=
  { exDoneTodo with id := "open-1", title := "미완료 일", completed := false }

/-- 80 todos of which 23 are completed. -/
def exRateList : List TodoData :=
  List.replicate 23 exDoneTodo ++ List.replicate 57 exOpenTodo

/-- C8, counterexample: for 80 todos of which 23 are completed the route
evaluates `(23 / 80) * 100` in binary64 — the product rounds to
28.749999999999996…, below the decimal tie — so `toFixed(1)` prints
`"28.7"`, while the exact `100 * 23 / 80 = 28.75` rounded to one decimal
is `"28.8"`: the claim as stated is false of the program. -/
theorem completion_rate_spec_counterexample :
    completionRate exRateList = "28.7" ∧
      rateSpec (completedCount exRateList) exRateList.length = "28.8" ∧
      completionRate exRateList ≠
        rateSpec (completedCount exRateList) exRateList.length := by
  decide

/-- The rate formula as amended: still `100 * completed / total` with
one decimal and `"0.0"` on an empty group, but evaluated the way the
program evaluates it — `completed / total` rounded to binary64, times
100, rounded again, then `toFixed(1)`. -/
def rateSpecAmended (completed total : Nat) : String :=
  if total = 0 then "0.0"
  else jsToFixed1 (fpMul (fpDiv (natToDouble completed) (natToDouble total))
    { m := 100, e := 0 })

/-- The guarded rate computation of the summary route and the amended
formula agree on every pair of counts. -/
theorem rate_formula_eq (c t : Nat) :
    (if t > 0 then
        jsToFixed1 (fpMul (fpDiv (natToDouble c) (natToDouble t)) { m := 100, e := 0 })
      else "0.0") = rateSpecAmended c t := by
  unfold rateSpecAmended
  rcases Nat.eq_zero_or_pos t with h | h
  · simp [h]
  · rw [if_pos h, if_neg (Nat.pos_iff_ne_zero.mp h)]

/-- C8 (amended): the overall completion rate and the per-priority
completion rates of the summary route each equal `100 * completed / size`
evaluated in binary64 (ratio and product each IEEE-rounded) and rendered
by `toFixed(1)`, and `"0.0"` on an empty group; the binary64 evaluation
deviates from exact one-decimal rounding at decimal-tie ratios such as
23/80. -/
theorem summary_completion_rates (todos : List TodoData) :
    completionRate todos = rateSpecAmended (completedCount todos) todos.length ∧
    priorityCompletionRate Priority.high todos =
      rateSpecAmended (completedCount (priorityGroup Priority.high todos))
        (priorityGroup Priority.high todos).length ∧
    priorityCompletionRate Priority.medium todos =
      rateSpecAmended (completedCount (priorityGroup Priority.medium todos))
        (priorityGroup Priority.medium todos).length ∧
    priorityCompletionRate Priority.low todos =
      rateSpecAmended (completedCount (priorityGroup Priority.low todos))
        (priorityGroup Priority.low todos).length := by
  refine ⟨?_, ?_, ?_, ?_⟩ <;>
    simp only [completionRate, priorityCompletionRate] <;>
    exact rate_formula_eq _ _

/-- C4: post-processing rewrites a `due_date` that matches `YYYY-MM-DD`
and denotes a calendar date strictly before today's calendar date (time
of day ignored on both sides) to today's `YYYY-MM-DD`, and leaves every
other `due_date` unchanged. -/
theorem extract_past_due_date_rewritten (todoData : TodoRaw) (today : JsDate) :
    (postprocessTodoData todoData today).due_date =
      match jsParseIsoDate todoData.due_date with
      | some dueDateObj =>
        if dueDateObj.day < today.day then toISODatePart today
        else todoData.due_date
      | none => todoData.due_date := by
  have hts : ∀ a b : JsDate, ((startOfDay a).ts < (startOfDay b).ts ↔ a.day < b.day) := by
    intro a b
    simp only [startOfDay, JsDate.ts, JsDate.day]
    omega
  unfold postprocessTodoData
  cases hp : jsParseIsoDate todoData.due_date with
  | none => simp [hp]
  | some dueDateObj =>
    simp only [hp]
    rw [if_congr (hts dueDateObj today) rfl rfl]

/-- C5: post-processing replaces a title shorter than 2 characters by
the placeholder `"할 일"`, truncates a title longer than 100 characters
to exactly 100 characters ending in `"..."`, and keeps every other title
unchanged. -/
theorem extract_title_clamped (todoData : TodoRaw) (today : JsDate) :
    (todoData.title.length < 2 →
      (postprocessTodoData todoData today).title = "할 일".toList) ∧
    (todoData.title.length > 100 →
      (postprocessTodoData todoData today).title.length = 100 ∧
        "...".toList <:+ (postprocessTodoData todoData today).title) ∧
    (2 ≤ todoData.title.length → todoData.title.length ≤ 100 →
      (postprocessTodoData todoData today).title = todoData.title) := by
  refine ⟨?_, ?_, ?_⟩
  · intro hshort
    rcases eq_or_ne todoData.title [] with hnil | hnil
    · simp [postprocessTodoData, hnil, TITLE_MIN_LENGTH, TITLE_MAX_LENGTH]
    · simp only [postprocessTodoData, TITLE_MIN_LENGTH, TITLE_MAX_LENGTH, if_neg hnil]
      rw [if_pos (by omega)]
  · intro hlong
    have hnil : todoData.title ≠ [] := by
      intro hc
      rw [hc] at hlong
      simp at hlong
    simp only [postprocessTodoData, TITLE_MIN_LENGTH, TITLE_MAX_LENGTH, if_neg hnil]
    rw [if_neg (by omega), if_pos (by omega)]
    have h3 : ("...".toList : List Char).length = 3 := rfl
    constructor
    · simp only [List.length_append, List.length_take, h3]
      omega
    · exact ⟨todoData.title.take (100 - 3), rfl⟩
  · intro hmin hmax
    have hnil : todoData.title ≠ [] := by
      intro hc
      rw [hc] at hmin
      simp at hmin
    simp only [postprocessTodoData, TITLE_MIN_LENGTH, TITLE_MAX_LENGTH, if_neg hnil]
    rw [if_neg (by omega), if_neg (by omega)]

/-- A concrete short-titled model output for the C5 witness. -/
def exShortTitleRaw : TodoRaw :=
  { title := ['회']
    description := none
    due_date := "2025-06-03".toList
    due_time := none
    priority := Priority.medium
    category := none }

/-- Witness for C5: a one-character title becomes the placeholder. -/
theorem extract_title_clamped_witness :
    (postprocessTodoData exShortTitleRaw exDate).title = "할 일".toList :=
  (extract_title_clamped exShortTitleRaw exDate).1 (by decide)

/-- An incomplete, medium-priority todo whose due date (2025-06-01) is
already past on 2025-06-02: the summary route still lists it as urgent
because its filter admits every due date `<=` tomorrow. -/
def exOverdueTodo : TodoData :=
  { id := "todo-1"
    title := "밀린 보고서"
    description := none
    due_date := some ⟨2025, 6, 1, 0⟩
    priority := Priority.medium
    category := none
    completed := false
    created_date := ⟨2025, 5, 30, 0⟩ }

/-- C6, counterexample: on 2025-06-02 the route's urgent-task list for
`[exOverdueTodo]` is `["밀린 보고서"]`, but the claim's "high-priority or
due today or tomorrow" list is empty — the claim as stated is false. -/
theorem urgent_tasks_spec_counterexample :
    urgentTasksLocal exDate [exOverdueTodo] ≠ urgentTasksSpec exDate [exOverdueTodo] := by
  decide

/-- C6, amended: the urgent-task list consists exactly of the titles of
the incomplete todos that are high-priority or due on or before tomorrow
(overdue ones included), in input order, truncated to at most 5. -/
theorem urgent_tasks_eq_amended (now : JsDate) (todos : List TodoData) :
    urgentTasksLocal now todos = urgentTasksAmended now todos := by
  have hpt : ∀ t, isUrgentLocal (startOfDay now).day t =
      isUrgentAmended (startOfDay now).day t := by
    intro t
    unfold isUrgentLocal isUrgentAmended
    cases hc : t.completed
    · by_cases hp : t.priority = Priority.high
      · simp [hp]
      · cases hd : t.due_date with
        | none => simp [hp, hd]
        | some d =>
          simp only [hp, hd, Bool.not_false, Bool.true_and, decide_eq_true_eq]
          simp only [if_neg (fun h => Bool.false_ne_true h), if_neg hp]
          exact decide_eq_decide.mpr (by omega)
    · simp
  unfold urgentTasksLocal urgentTasksAmended
  rw [List.filter_congr (fun t _ => hpt t)]

/-- Every element of a merge comes from one of the two inputs. -/
theorem mem_mergeLists {α : Type} (le : α → α → Bool) :
    ∀ (xs ys : List α) (z : α), z ∈ mergeLists le xs ys → z ∈ xs ∨ z ∈ ys := by
  intro xs ys
  induction xs, ys using mergeLists.induct le with
  | case1 ys => intro z hz; exact Or.inr (by simpa [mergeLists] using hz)
  | case2 x xs => intro z hz; exact Or.inl (by simpa [mergeLists] using hz)
  | case3 x xs y ys hle ih =>
    intro z hz
    rw [mergeLists, if_pos hle] at hz
    rcases List.mem_cons.mp hz with h | h
    · exact Or.inl (h ▸ List.mem_cons_self _ _)
    · rcases ih z h with h1 | h1
      · exact Or.inl (List.mem_cons_of_mem _ h1)
      · exact Or.inr h1
  | case4 x xs y ys hle ih =>
    intro z hz
    rw [mergeLists, if_neg hle] at hz
    rcases List.mem_cons.mp hz with h | h
    · exact Or.inr (h ▸ List.mem_cons_self _ _)
    · rcases ih z h with h1 | h1
      · exact Or.inl h1
      · exact Or.inr (List.mem_cons_of_mem _ h1)

/-- Merging preserves the pairwise relation `U a → U b` provided the
comparator never prefers a `U` element over a non-`U` element in either
direction. -/
theorem pairwise_mergeLists {α : Type} (U : α → Prop) (le : α → α → Bool)
    (F1 : ∀ x y, le x y = true → U x → U y)
    (F2 : ∀ x y, le x y = false → U y → U x) :
    ∀ xs ys : List α, xs.Pairwise (fun a b => U a → U b) →
      ys.Pairwise (fun a b => U a → U b) →
      (mergeLists le xs ys).Pairwise (fun a b => U a → U b) := by
  intro xs ys
  induction xs, ys using mergeLists.induct le with
  | case1 ys => intro _ hys; simpa [mergeLists] using hys
  | case2 x xs => intro hxs _; simpa [mergeLists] using hxs
  | case3 x xs y ys hle ih =>
    intro hxs hys
    rw [mergeLists, if_pos hle]
    rcases List.pairwise_cons.mp hxs with ⟨hx, hxs'⟩
    rcases List.pairwise_cons.mp hys with ⟨hy, hys'⟩
    refine List.pairwise_cons.mpr ⟨?_, ih hxs' hys⟩
    intro z hz hUx
    have hUy : U y := F1 x y hle hUx
    rcases mem_mergeLists le xs (y :: ys) z hz with h | h
    · exact hx z h hUx
    · rcases List.mem_cons.mp h with h1 | h1
      · exact h1 ▸ hUy
      · exact hy z h1 hUy
  | case4 x xs y ys hle ih =>
    intro hxs hys
    rw [mergeLists, if_neg hle]
    rcases List.pairwise_cons.mp hxs with ⟨hx, hxs'⟩
    rcases List.pairwise_cons.mp hys with ⟨hy, hys'⟩
    refine List.pairwise_cons.mpr ⟨?_, ih hxs hys'⟩
    intro z hz hUy
    have hUx : U x := F2 x y (by simpa using hle) hUy
    rcases mem_mergeLists le (x :: xs) ys z hz with h | h
    · rcases List.mem_cons.mp h with h1 | h1
      · exact h1 ▸ hUx
      · exact hx z h1 hUx
    · exact hy z h hUy

/-- The merge sort always outputs a list that is pairwise `U a → U b`
under the same comparator conditions, whatever the input order. -/
theorem pairwise_mergeSortBy {α : Type} (U : α → Prop) (le : α → α → Bool)
    (F1 : ∀ x y, le x y = true → U x → U y)
    (F2 : ∀ x y, le x y = false → U y → U x) :
    ∀ l : List α, (mergeSortBy le l).Pairwise (fun a b => U a → U b) := by
  intro l
  induction l using mergeSortBy.induct le with
  | case1 => simp [mergeSortBy]
  | case2 a => simp [mergeSortBy]
  | case3 a b rest p ih1 ih2 =>
    rw [mergeSortBy]
    exact pairwise_mergeLists U le F1 F2 _ _ ih1 ih2

/-- C9: with sort option `due_date`, the derived view places every todo
lacking a due date after every todo having one — once an undated record
appears, everything after it is undated — irrespective of the instant,
the locale comparator, the filters and the input order. -/
theorem sorted_due_date_undated_last (now : JsDate)
    (titleOrder : JsStr → JsStr → Int) (searchQuery : JsStr)
    (statusFilter : FilterStatus) (priorityFilter : Option Priority)
    (todos : List Todo) :
    (filteredAndSortedTodos now titleOrder searchQuery statusFilter priorityFilter
        SortOption.due_date todos).Pairwise
      (fun a b => a.due_date = none → b.due_date = none) := by
  unfold filteredAndSortedTodos
  apply pairwise_mergeSortBy
  · intro x y hle hx
    exfalso
    simp only [compareTodos, hx] at hle
    simp at hle
  · intro x y hle hy
    cases hx : x.due_date with
    | none => rfl
    | some d =>
      exfalso
      simp only [compareTodos, hx, hy] at hle
      simp at hle
